import Mathlib

/-!
Verification development for the struct-wrapper and cache machinery of
`src/py21cmmc/_21cmfast/_utils.py` (classes `StructWithDefaults` and
`OutputStruct`).  The embedding is shallow: Python instance dictionaries
become association lists, exceptions become `Option`/`Except` results, and
the filesystem becomes an explicit list of (directory, filename, contents)
entries.  Line numbers in doc comments refer to `_utils.py`.
-/

/-- Python values stored in parameter-record fields (numeric, textual or
boolean, matching the spec's data model for Parameter Records). -/
inductive Val
  | int (n : Int)
  | str (s : String)
  | bool (b : Bool)
deriving DecidableEq

/-- Python exception kinds that the modelled code can raise. -/
inductive PyErr
  | attributeError
  | valueError
  | typeError
deriving DecidableEq

/-- Lookup in a Python dictionary / instance `__dict__`, modelled as an
association list (first binding wins; bindings are kept unique). -/
def alookup {β : Type} : List (String × β) → String → Option β
  | [], _ => none
  | (k, v) :: t, key => if k = key then some v else alookup t key

/-- Assignment `d[key] = v` on a Python dictionary: an existing binding is
replaced in place, a new key is appended at the end (insertion order). -/
def setKey {β : Type} : List (String × β) → String → β → List (String × β)
  | [], key, v => [(key, v)]
  | (k, w) :: t, key, v => if k = key then (key, v) :: t else (k, w) :: setKey t key v

/-- Python `s.startswith(pre)` (line 158 uses `k.startswith("RANDOM_SEED")`). -/
def pyStartsWith (s pre : String) : Bool := pre.data.isPrefixOf s.data

/-- Lexicographic comparison of char lists by code point, the order Python
uses for `str` comparison and hence for `sorted` on strings (line 161). -/
def charListLe : List Char → List Char → Bool
  | [], _ => true
  | _ :: _, [] => false
  | a :: as, b :: bs =>
    if a.toNat < b.toNat then true
    else if b.toNat < a.toNat then false
    else charListLe as bs

/-- Python `<=` on strings: code-point lexicographic order. -/
def pyStrLe (a b : String) : Bool := charListLe a.data b.data

/-- Insertion step of a stable insertion sort with respect to `le`. -/
def insertBy {α : Type} (le : α → α → Bool) (x : α) : List α → List α
  | [] => [x]
  | y :: t => if le x y then x :: y :: t else y :: insertBy le x t

/-- Sorting with respect to `le`; on a total antisymmetric order this
computes the same list as Python's `sorted`. -/
def sortBy {α : Type} (le : α → α → Bool) : List α → List α
  | [] => []
  | x :: t => insertBy le x (sortBy le t)

/-- Python `str(v)` for the embedded value universe. -/
def pyStr : Val → String
  | Val.int n => toString n
  | Val.str s => s
  | Val.bool true => "True"
  | Val.bool false => "False"

/-- State of a `StructWithDefaults` instance: the class-level data
(`__name__`, `_defaults_`, which fields are read-only properties) together
with the instance `__dict__` (`attrs`) and whether the hidden cached
`_StructWithDefaults__cstruct` attribute currently exists. -/
structure SWD where
  className : String
  defaults : List (String × Val)
  propertyFields : List String
  attrs : List (String × Val)
  cstructAlloc : Bool
deriving DecidableEq

/-- Modelled from the spec: the concrete parameter-record subclasses are
not under `src/`; per spec section 9 ("Property-vs-attribute fallback") and
section 4.1 they may define a field as a read-only computed property whose
settable backing slot is the same name with a `_` prefix, which is exactly
what the `try setattr / except AttributeError: setattr("_" + k, ...)`
fallback at lines 54-59 and 112-116 targets.  `storageKey` maps a field
name to the attribute that actually stores its value. -/
def storageKey (pf : List String) (k : String) : String :=
  if k ∈ pf then "_" ++ k else k

/-- Python `getattr(self, k)` for a stored-or-derived field: a derived
(property) field reads its hidden backing slot. -/
def SWD.getattrPy (s : SWD) (k : String) : Option Val :=
  alookup s.attrs (storageKey s.propertyFields k)

/-- The attribute-building loop of `__init__` (lines 48-59): for every
default field take the constructor override if present, else the default,
and `setattr` it (falling back to the hidden slot for property fields).
Keys of `kwargs` outside the default set are never consulted. -/
def buildOver (pf : List String) (kwargs : List (String × Val)) :
    List (String × Val) → List (String × Val) → List (String × Val)
  | [], a => a
  | kd :: ds, a =>
    buildOver pf kwargs ds (setKey a (storageKey pf kd.1) ((alookup kwargs kd.1).getD kd.2))

/-- Class-level data of a `StructWithDefaults` subclass. -/
structure SWDClass where
  className : String
  defaults : List (String × Val)
  propertyFields : List String

/-- `StructWithDefaults.__init__` (lines 46-68).  `_logic` is a no-op in
the base class, `_strings` is irrelevant to the modelled state, and the
hidden `__cstruct` does not exist on a fresh instance. -/
def constructSWD (cls : SWDClass) (kwargs : List (String × Val)) : SWD :=
  { className := cls.className
    defaults := cls.defaults
    propertyFields := cls.propertyFields
    attrs := buildOver cls.propertyFields kwargs cls.defaults []
    cstructAlloc := false }

/-- The merge loop of `update` (lines 107-116): for every default field
that occurs in `kwargs`, `setattr` the new value (with the property
fallback); other fields are untouched. -/
def mergeOver (pf : List String) (kwargs : List (String × Val)) :
    List (String × Val) → List (String × Val) → List (String × Val)
  | [], a => a
  | kd :: ds, a =>
    mergeOver pf kwargs ds
      (match alookup kwargs kd.1 with
       | some v => setKey a (storageKey pf kd.1) v
       | none => a)

/-- Result of `StructWithDefaults.update`: the instance state after the
merge loop and warning have taken effect, the warned (rejected) keys, and
the exception, if any, raised by the trailing
`delattr(self, "_StructWithDefaults__cstruct")` (line 125). -/
structure UpdateResult where
  state : SWD
  warned : List String
  err : Option PyErr
deriving DecidableEq

/-- `StructWithDefaults.update` (lines 95-125).  The merge loop pops the
recognized keys out of `kwargs`; whatever is left triggers the warning at
line 119.  `_logic` is a no-op and `_strings` is irrelevant.  The final
`delattr` raises `AttributeError` when the hidden cached cstruct attribute
does not exist, and that happens after the merges and the warning. -/
def SWD.update (s : SWD) (kwargs : List (String × Val)) : UpdateResult :=
  let s1 : SWD := { s with attrs := mergeOver s.propertyFields kwargs s.defaults s.attrs }
  let leftover := kwargs.filter (fun kv => !(s.defaults.any (fun kd => kd.1 == kv.1)))
  let warned := leftover.map Prod.fst
  if s.cstructAlloc then
    { state := { s1 with cstructAlloc := false }, warned := warned, err := none }
  else
    { state := s1, warned := warned, err := some PyErr.attributeError }

/-- Effectful map over `Option`: the first failing element aborts, matching
a Python comprehension in which an element access may raise. -/
def mapOptM {α β : Type} (f : α → Option β) : List α → Option (List β)
  | [] => some []
  | x :: t =>
    match f x, mapOptM f t with
    | some y, some ys => some (y :: ys)
    | _, _ => none

/-- The `__defining_dict` comprehension (lines 154-158): iterate the
default field names, drop those starting with `RANDOM_SEED`, and `getattr`
each survivor; a missing attribute raises (modelled by `none`). -/
def SWD.definingPairs? (s : SWD) : Option (List (String × Val)) :=
  mapOptM (fun k => (s.getattrPy k).map (fun v => (k, v)))
    ((s.defaults.map Prod.fst).filter (fun k => !(pyStartsWith k "RANDOM_SEED")))

/-- Rendering of one defining entry as `k:str(v)` (line 161). -/
def renderKV (kv : String × Val) : String := kv.1 ++ ":" ++ pyStr kv.2

/-- `StructWithDefaults.__repr__` (lines 160-161): the class name around
the `", "`-join of the *sorted rendered* `k:v` strings of the defining
dictionary.  Note the source sorts the already-rendered strings and joins
with `", "`. -/
def SWD.reprS? (s : SWD) : Option String :=
  (s.definingPairs?).map
    (fun l => s.className ++ "(" ++
      String.intercalate ", " (sortBy pyStrLe (l.map renderKV)) ++ ")")

/-- The representation the spec's words describe for `identity()`:
`ClassName(field1:value1; field2:value2; ...)` with the fields sorted by
field *name* and separated by `"; "`.  Written from the spec sentence, to
be compared against `SWD.reprS?`. -/
def SWD.reprSpec? (s : SWD) : Option String :=
  (s.definingPairs?).map
    (fun l => s.className ++ "(" ++
      String.intercalate "; " ((sortBy (fun a b => pyStrLe a.1 b.1) l).map renderKV) ++ ")")

/-- The sorted rendered `k:v` string list that line 161 joins with `", "`:
the data from which a record's representation - and hence the md5 input of
the Artifact Record fingerprint - is built. -/
def SWD.renderedSorted? (s : SWD) : Option (List String) :=
  (s.definingPairs?).map (fun l => sortBy pyStrLe (l.map renderKV))

/-- Two records of the same kind that agree everywhere except possibly at
the single non-volatile field `k`, where they hold `v1` and `v2`. -/
abbrev SingleFieldChange (r1 r2 : SWD) (k : String) (v1 v2 : Val) : Prop :=
  r1.className = r2.className ∧
  r1.defaults.map Prod.fst = r2.defaults.map Prod.fst ∧
  k ∈ r1.defaults.map Prod.fst ∧
  pyStartsWith k "RANDOM_SEED" = false ∧
  r1.getattrPy k = some v1 ∧
  r2.getattrPy k = some v2 ∧
  ∀ k2, k2 ∈ r1.defaults.map Prod.fst → k2 ≠ k → r1.getattrPy k2 = r2.getattrPy k2

/-- `StructWithDefaults.__eq__` (lines 163-164): compare `self.__repr__()`
with `repr(other)`; an exception inside either repr propagates (`none`). -/
def SWD.eqPy? (s other : SWD) : Option Bool := do
  let r1 ← s.reprS?
  let r2 ← other.reprS?
  pure (r1 == r2)

/-- Embedding of `__hash__` (lines 166-167), `hash(self.__repr__)`: the
argument is the *bound method* `self.__repr__`, not the string it returns.
CPython hashes a bound method by combining the hash of its `__self__` -
which re-enters this very `__hash__` - with the hash of the underlying
function object, so the computation has no base case; we index it by fuel
(`none` = still running).  The combining operation and the hash of the
function object are irrelevant: no amount of fuel produces a value. -/
def swdHashFuel (funcHash : Nat) (s : SWD) : Nat → Option Nat
  | 0 => none
  | n + 1 => (swdHashFuel funcHash s n).map (fun x => x ^^^ funcHash)

/-! ## OutputStruct: foreign-memory arrays -/

/-- An instance attribute of an `OutputStruct`: either a numpy array (the
payload stands in for the array contents) or a plain value. -/
inductive PyAttr
  | ndarray (data : List Int)
  | val (v : Val)
deriving DecidableEq

/-- Exceptions raised on the array-initialization path.  The source raises
`AttributeError` both when `getattr(self, k)` finds a pointer field with no
attribute (line 265) and at the explicit ill-defined check (lines 272-274);
the spec calls this condition `StructInvalidError` and we model both sites
with `structInvalid`.  `ary2buf` raises `ValueError` for a non-array
attribute (lines 277-278), and assigning a non-primitive to a primitive
cstruct field raises `TypeError` (uncaught at lines 266-270). -/
inductive InitErr
  | structInvalid
  | valueError
  | typeError
deriving DecidableEq

/-- The array-related state of an `OutputStruct` instance: the pointer and
primitive field names of the underlying C struct, the instance attributes,
and the C struct's own slots - `cptr k = true` means pointer field `k` is
bound to non-NULL foreign memory (a fresh `ffi.new` struct is zero-filled,
so a missing entry reads as NULL), `cprim` holds the primitive slots. -/
structure ArrState where
  pointerFields : List String
  primitiveFields : List String
  attrs : List (String × PyAttr)
  cptr : List (String × Bool)
  cprim : List (String × Val)
deriving DecidableEq

/-- `OutputStruct.arrays_initialized` (lines 249-258): walk the pointer
fields and fail on the first one that is missing as an attribute or NULL in
the cstruct; otherwise succeed. -/
def arraysInitialized (s : ArrState) : Bool :=
  s.pointerFields.all
    (fun k => (alookup s.attrs k).isSome && ((alookup s.cptr k).getD false))

/-- The pointer-binding loop of `_init_cstruct` (lines 264-265):
`setattr(self._cstruct, k, self._ary2buf(getattr(self, k)))` for each
pointer field.  A missing attribute raises `AttributeError` (modelled
`structInvalid`, see `InitErr`); a non-array attribute makes `_ary2buf`
raise `ValueError`; a successful `from_buffer` cast is non-NULL. -/
def bindPointers (attrs : List (String × PyAttr)) :
    List String → List (String × Bool) → Except InitErr (List (String × Bool))
  | [], cptr => .ok cptr
  | k :: ks, cptr =>
    match alookup attrs k with
    | none => .error InitErr.structInvalid
    | some (PyAttr.val _) => .error InitErr.valueError
    | some (PyAttr.ndarray _) => bindPointers attrs ks (setKey cptr k true)

/-- The primitive-copying loop of `_init_cstruct` (lines 266-270): a
missing attribute is swallowed (`except AttributeError: pass`), an
array-valued attribute cannot be assigned to a primitive cstruct field and
raises `TypeError`, which is not caught. -/
def setPrims (attrs : List (String × PyAttr)) :
    List String → List (String × Val) → Except InitErr (List (String × Val))
  | [], cprim => .ok cprim
  | k :: ks, cprim =>
    match alookup attrs k with
    | none => setPrims attrs ks cprim
    | some (PyAttr.ndarray _) => .error InitErr.typeError
    | some (PyAttr.val v) => setPrims attrs ks (setKey cprim k v)

/-- Modelled from the spec: `_init_arrays` is supplied by the concrete
`OutputStruct` subclasses, which are not under `src/`; per spec section 4.2
the allocation policy for unset array fields "is record-kind-specific and
supplied by the concrete record".  We take it as an arbitrary state
transformer parameter. -/
def InitArraysPolicy : Type := ArrState → ArrState

/-- `OutputStruct._init_cstruct` (lines 260-274): run `_init_arrays`, bind
every pointer field, copy every primitive field, then raise unless
`arrays_initialized` holds. -/
def initCstruct (initArrays : InitArraysPolicy) (s0 : ArrState) : Except InitErr ArrState :=
  let s := initArrays s0
  match bindPointers s.attrs s.pointerFields s.cptr with
  | .error e => .error e
  | .ok cptr1 =>
    match setPrims s.attrs s.primitiveFields s.cprim with
    | .error e => .error e
    | .ok cprim1 =>
      let s1 : ArrState := { s with cptr := cptr1, cprim := cprim1 }
      if arraysInitialized s1 then .ok s1 else .error InitErr.structInvalid

/-- `OutputStruct.__call__` (lines 281-285): initialize the arrays first if
needed, then hand out the cstruct (the state carrying it). -/
def callStruct (initArrays : InitArraysPolicy) (s : ArrState) : Except InitErr ArrState :=
  if arraysInitialized s then .ok s else initCstruct initArrays s

/-! ## OutputStruct: cache locator -/

/-- A filename in the cache directory: either a fingerprint-derived name
`<kind>_<fp>_r<seed>.h5` (built at line 484) or an unstructured name (an
explicit `fname` argument).  The model keeps the three components of the
structured form; the directory part of a path is assumed not to contain the
`r<digits>.` pattern, so the seed-wildcard substitution of line 313 touches
exactly the seed component. -/
inductive FileName
  | cache (kind fp : String) (seed : Nat)
  | plain (s : String)
deriving DecidableEq

/-- The data `_hashname` draws from the instance: `self._name`, the
`_md5` fingerprint hex string, and `self.cosmo_params.RANDOM_SEED`. -/
structure Locator where
  name : String
  fp : String
  seed : Nat
deriving DecidableEq

/-- `OutputStruct._hashname` (lines 482-484). -/
def hashname (l : Locator) : FileName := FileName.cache l.name l.fp l.seed

/-- Contents of one group of an HDF5 container file: child datasets and
group-level attributes. -/
structure H5Group where
  datasets : List (String × List Int)
  attrs : List (String × Val)
deriving DecidableEq

/-- Contents of an HDF5 container file: its named groups. -/
structure H5Content where
  groups : List (String × H5Group)
deriving DecidableEq

/-- The filesystem visible to the cache locator: existing files as
(directory, filename, contents) entries.  List order stands in for the
undefined filesystem order that `glob` enumerates. -/
structure FS where
  files : List (String × FileName × H5Content)

/-- `os.path.exists` on a (directory, filename) pair. -/
def fsExists (fs : FS) (p : String × FileName) : Bool :=
  fs.files.any (fun e => decide (e.1 = p.1) && decide (e.2.1 = p.2))

/-- Contents of an existing file. -/
def lookupFile (fs : FS) (p : String × FileName) : Option H5Content :=
  (fs.files.find? (fun e => decide (e.1 = p.1) && decide (e.2.1 = p.2))).map (fun e => e.2.2)

/-- Does a filename match the seed-wildcarded pattern produced at line 313
(`re.sub("r\d+\.", "r*.", f)`) from the hashname of `kind`/`fp`?  The
fingerprint is a hex string and the kind an identifier, so within the
structured name only the seed component matches `r<digits>.`. -/
def seedPatternMatch (fn : FileName) (kind fp : String) : Bool :=
  match fn with
  | FileName.cache k f _ => decide (k = kind) && decide (f = fp)
  | FileName.plain _ => false

/-- `OutputStruct._find_file_without_seed` (lines 311-318): glob the
seed-wildcarded pattern in directory `d` and return the first hit. -/
def findWithoutSeed (fs : FS) (d : String) (kind fp : String) : Option (String × FileName) :=
  (fs.files.find? (fun e => decide (e.1 = d) && seedPatternMatch e.2.1 kind fp)).map
    (fun e => (e.1, e.2.1))

/-- `OutputStruct._get_fname` (lines 301-309).  `if direc:` tests Python
truthiness, so an empty-string directory falls back to the configured
default directory and the hash-derived name, exactly as `direc or ...` and
the `else` branch do. -/
def getFname (defaultDir : String) (direc : Option String) (fname : Option FileName)
    (hn : FileName) : String × FileName :=
  match direc with
  | some d => if d = "" then (defaultDir, hn) else (d, fname.getD hn)
  | none => (defaultDir, hn)

/-- `OutputStruct.find_existing` (lines 320-362).  Branch structure follows
the source: with a directory argument, first the explicit filename, then
the hash-derived name, then - only when `match_seed` is false - the
seed-insensitive glob in that directory; in every non-returning case the
flow falls through to the block at lines 355-360, which checks the default
cache directory and runs the seed-insensitive glob there *unconditionally*
(no `match_seed` guard). -/
def findExisting (fs : FS) (defaultDir : String) (l : Locator) (direc : Option String)
    (fname : Option FileName) (matchSeed : Bool) : Option (String × FileName) :=
  let hn := hashname l
  let fromDefault :=
    let f := getFname defaultDir none none hn
    if fsExists fs f then some f
    else findWithoutSeed fs f.1 l.name l.fp
  match direc with
  | none => fromDefault
  | some d =>
    let explicitHit : Option (String × FileName) :=
      match fname with
      | some fn =>
        if fsExists fs (getFname defaultDir (some d) (some fn) hn) then
          some (getFname defaultDir (some d) (some fn) hn)
        else none
      | none => none
    match explicitHit with
    | some p => some p
    | none =>
      let f := getFname defaultDir (some d) none hn
      if fsExists fs f then some f
      else if !matchSeed then
        match findWithoutSeed fs f.1 l.name l.fp with
        | some g => some g
        | none => fromDefault
      else fromDefault

/-! ## OutputStruct: instance state, repr and read -/

/-- Modelled from the spec: the fingerprint hash (`hashlib.md5(...).hexdigest()`,
line 480) is an external library function; the spec describes
`fingerprint()` only as `hash(textual-representation)`, so we treat it as
an opaque deterministic function of the representation string. -/
def HashFn : Type := String → String

/-- State of an `OutputStruct` instance: `self._name`, the two composing
parameter records set first in `__init__` (lines 190-191), the array state
of the C struct, and the `filled` flag. -/
structure OState where
  name : String
  user_params : SWD
  cosmo_params : SWD
  arr : ArrState
  filled : Bool
deriving DecidableEq

/-- `OutputStruct.__repr__` (lines 467-470): the struct name around the
`"; "`-join of the reprs of the `StructWithDefaults`-valued entries of
`self.__dict__`, which for a record built by `__init__` without extra
record-valued kwargs are `user_params` then `cosmo_params` in insertion
order.  An exception inside either repr propagates (`none`).  `_md5`
(line 480) is the md5 of this string, so fingerprint equality follows from
equality of these strings. -/
def OState.reprS? (st : OState) : Option String :=
  match st.user_params.reprS?, st.cosmo_params.reprS? with
  | some ru, some rc =>
    some (st.name ++ "(" ++ String.intercalate "; " [ru, rc] ++ ")")
  | _, _ => none

/-- The seed that `_hashname` reads from `self.cosmo_params.RANDOM_SEED`
(line 484), as a natural number (the modelled seed domain). -/
def OState.seedNat (st : OState) : Option Nat :=
  match st.cosmo_params.getattrPy "RANDOM_SEED" with
  | some (Val.int (Int.ofNat n)) => some n
  | _ => none

/-- The locator data `find_existing` derives from the instance: name,
fingerprint (the hash of the repr string) and seed.  `none` when the repr
raises or the seed is unavailable, in which case the Python attribute
accesses inside `_hashname` would raise before any search happens. -/
def OState.locator? (h : HashFn) (st : OState) : Option Locator :=
  match st.reprS?, st.seedNat with
  | some r, some n => some { name := st.name, fp := h r, seed := n }
  | _, _ => none

/-- Errors of the `read` path (lines 421-465).  `notFound` is the
`IOError("No boxes exist ...")` of line 442; `initFailed` wraps an
exception escaping `_init_cstruct` (line 446); `ioError` stands for an
`h5py` open failure; `noGroup` is the `IOError` of line 452; the dataset
loop at lines 455-456 raises when an array attribute is missing or not an
array; lines 462-463 raise `KeyError` when the `cosmo` group or its
`RANDOM_SEED` attribute is absent. -/
inductive ReadErr
  | locatorFailed
  | notFound
  | initFailed (e : InitErr)
  | ioError
  | noGroup
  | missingArrayAttr
  | notAnArray
  | noCosmoGroup
  | noSeedAttr
deriving DecidableEq

/-- The dataset-filling loop of `read` (lines 455-456):
`getattr(self, k)[...] = boxes[k][...]` for every dataset `k` of the boxes
group - the attribute must exist and be an array, and its contents are
replaced in place. -/
def fillDatasets (attrs : List (String × PyAttr)) :
    List (String × List Int) → Except ReadErr (List (String × PyAttr))
  | [] => .ok attrs
  | (k, data) :: rest =>
    match alookup attrs k with
    | none => .error ReadErr.missingArrayAttr
    | some (PyAttr.val _) => .error ReadErr.notAnArray
    | some (PyAttr.ndarray _) => fillDatasets (setKey attrs k (PyAttr.ndarray data)) rest

/-- The attribute-filling loop of `read` (lines 458-459):
`setattr(self, k, boxes.attrs[k])` - a plain instance-attribute write. -/
def fillBoxAttrs (attrs : List (String × PyAttr)) (bAttrs : List (String × Val)) :
    List (String × PyAttr) :=
  bAttrs.foldl (fun a kv => setKey a kv.1 (PyAttr.val kv.2)) attrs

/-- The body of `read` once the file is open (lines 448-464): fetch the
`self._name` group, fill datasets and attributes, read
`f['cosmo'].attrs['RANDOM_SEED']`, write it into
`self.cosmo_params._RANDOM_SEED` (a direct hidden-slot write), and set
`filled = True`. -/
def readBody (st1 : OState) (content : H5Content) : Except ReadErr OState :=
  match alookup content.groups st1.name with
  | none => .error ReadErr.noGroup
  | some boxes =>
    match fillDatasets st1.arr.attrs boxes.datasets with
    | .error e => .error e
    | .ok attrs1 =>
      match alookup content.groups "cosmo" with
      | none => .error ReadErr.noCosmoGroup
      | some cg =>
        match alookup cg.attrs "RANDOM_SEED" with
        | none => .error ReadErr.noSeedAttr
        | some sv =>
          .ok { st1 with
                arr := { st1.arr with attrs := fillBoxAttrs attrs1 boxes.attrs },
                cosmo_params :=
                  { st1.cosmo_params with
                    attrs := setKey st1.cosmo_params.attrs "_RANDOM_SEED" sv },
                filled := true }

/-- The part of `read` after a path has been found (lines 444-465):
initialize arrays if needed, open the file, then run `readBody`. -/
def readAfterFind (initArrays : InitArraysPolicy) (fs : FS) (p : String × FileName)
    (st : OState) : Except ReadErr OState :=
  let stepInit : Except ReadErr OState :=
    if arraysInitialized st.arr then .ok st
    else
      match initCstruct initArrays st.arr with
      | .ok a => .ok { st with arr := a }
      | .error e => .error (ReadErr.initFailed e)
  match stepInit with
  | .error e => .error e
  | .ok st1 =>
    match lookupFile fs p with
    | none => .error ReadErr.ioError
    | some content => readBody st1 content

/-- `OutputStruct.read` (lines 421-465): resolve a path with
`find_existing`, raise the not-found `IOError` when there is none,
otherwise continue with `readAfterFind`. -/
def readModel (h : HashFn) (initArrays : InitArraysPolicy) (defaultDir : String) (fs : FS)
    (direc : Option String) (fname : Option FileName) (matchSeed : Bool)
    (st : OState) : Except ReadErr OState :=
  match st.locator? h with
  | none => .error ReadErr.locatorFailed
  | some l =>
    match findExisting fs defaultDir l direc fname matchSeed with
    | none => .error ReadErr.notFound
    | some p => readAfterFind initArrays fs p st

/-! ## Concrete instances used by the claim theorems -/

/-- A two-field parameter-record class with a volatile seed field. -/
def c1Class : SWDClass :=
  ⟨"CosmoParams", [("SIGMA_8", Val.int 8), ("RANDOM_SEED", Val.int 0)], []⟩

/-- A record with seed 1. -/
def c1RecA : SWD := constructSWD c1Class [("RANDOM_SEED", Val.int 1)]

/-- The same record except for the volatile seed field. -/
def c1RecB : SWD := constructSWD c1Class [("RANDOM_SEED", Val.int 2)]

/-- Locator of a record requesting seed 3. -/
def c2Locator : Locator := ⟨"Kind", "abc", 3⟩

/-- A cache whose default directory holds only the seed-1 file. -/
def c2FS : FS := ⟨[("boxdir", FileName.cache "Kind" "abc" 1, ⟨[]⟩)]⟩

/-- A cache whose only file sits in an explicitly given directory. -/
def c2FS2 : FS := ⟨[("mydir", FileName.cache "Kind" "abc" 1, ⟨[]⟩)]⟩

/-- A plain one-field domain parameter record class. -/
def c3User : SWD := constructSWD ⟨"UserParams", [("HII_DIM", Val.int 100)], []⟩ []

/-- Model parameter record with seed 1. -/
def c3CosmoA : SWD :=
  constructSWD ⟨"CosmoParams", [("SIGMA_8", Val.int 8), ("RANDOM_SEED", Val.int 0)], []⟩
    [("RANDOM_SEED", Val.int 1)]

/-- The same record with seed 2. -/
def c3CosmoB : SWD :=
  constructSWD ⟨"CosmoParams", [("SIGMA_8", Val.int 8), ("RANDOM_SEED", Val.int 0)], []⟩
    [("RANDOM_SEED", Val.int 2)]

/-- The same record with a different non-volatile field value. -/
def c3CosmoC : SWD :=
  constructSWD ⟨"CosmoParams", [("SIGMA_8", Val.int 9), ("RANDOM_SEED", Val.int 0)], []⟩
    [("RANDOM_SEED", Val.int 1)]

/-- The same record as A except that SIGMA_8 holds the string "8" instead
of the integer 8 - a different value with the same str() rendering. -/
def c3CosmoD : SWD :=
  constructSWD ⟨"CosmoParams", [("SIGMA_8", Val.str "8"), ("RANDOM_SEED", Val.int 0)], []⟩
    [("RANDOM_SEED", Val.int 1)]

/-- An array state that plays no role in fingerprinting. -/
def c3Arr : ArrState := ⟨[], [], [], [], []⟩

/-- Artifact record A. -/
def c3A : OState := ⟨"Kind", c3User, c3CosmoA, c3Arr, false⟩

/-- Artifact record differing from A only in the seed. -/
def c3B : OState := ⟨"Kind", c3User, c3CosmoB, c3Arr, false⟩

/-- Artifact record differing from A in a non-volatile field. -/
def c3C : OState := ⟨"Kind", c3User, c3CosmoC, c3Arr, false⟩

/-- Artifact record differing from A only in the SIGMA_8 value's type, with
an identical textual rendering. -/
def c3D : OState := ⟨"Kind", c3User, c3CosmoD, c3Arr, false⟩

/-- The spec's worked update example, with the cached cstruct present. -/
def c4Rec : SWD :=
  { constructSWD ⟨"Params", [("a", Val.int 1), ("b", Val.int 2)], []⟩ [] with
    cstructAlloc := true }

/-- Keyword set mixing a recognized and an unrecognized key. -/
def c4Kwargs : List (String × Val) := [("a", Val.int 5), ("z", Val.int 9)]

/-- A fresh record whose cached cstruct was never materialized. -/
def c10Rec : SWD := constructSWD ⟨"Params", [("a", Val.int 1), ("b", Val.int 2)], []⟩ []

/-- Concrete instance state for the cache-lookup claims: the domain record. -/
def c5User : SWD := constructSWD ⟨"UserParams", [("HII_DIM", Val.int 100)], []⟩ []

/-- Model record for the cache-lookup claims; `RANDOM_SEED` is a derived
field with a hidden backing slot, as in the concrete subclasses. -/
def c5Cosmo : SWD :=
  constructSWD
    ⟨"CosmoParams", [("SIGMA_8", Val.int 8), ("RANDOM_SEED", Val.int 7)], ["RANDOM_SEED"]⟩ []

/-- A bound array state (one pointer field, bound non-NULL). -/
def c5Arr : ArrState :=
  ⟨["field0"], [], [("field0", PyAttr.ndarray [0])], [("field0", true)], []⟩

/-- Instance state requesting seed 7. -/
def c5St : OState := ⟨"Kind", c5User, c5Cosmo, c5Arr, false⟩

/-- The locator the instance derives under the identity hash function. -/
def c5Loc : Locator :=
  ⟨"Kind", "Kind(UserParams(HII_DIM:100); CosmoParams(SIGMA_8:8))", 7⟩

/-- A cache holding one matching file written under seed 1. -/
def c6FS : FS :=
  ⟨[("d", FileName.cache "Kind" "Kind(UserParams(HII_DIM:100); CosmoParams(SIGMA_8:8))" 1,
     ⟨[("cosmo", ⟨[], [("RANDOM_SEED", Val.int 1)]⟩),
       ("Kind", ⟨[("field0", [5])], []⟩)]⟩)]⟩

/-- The state after the successful read: `field0` holds the file's data, the
hidden seed slot holds the file's seed, and `filled` is true. -/
def c6StRes : OState :=
  { c5St with
    cosmo_params :=
      { c5Cosmo with attrs := [("SIGMA_8", Val.int 8), ("_RANDOM_SEED", Val.int 1)] },
    arr := { c5Arr with attrs := [("field0", PyAttr.ndarray [5])] },
    filled := true }

/-- A bound array state together with its cstruct slots filled. -/
def c7Good : ArrState :=
  ⟨["box"], ["n"], [("box", PyAttr.ndarray [1]), ("n", PyAttr.val (Val.int 5))], [], []⟩

/-- The state `_init_cstruct` produces from `c7Good`. -/
def c7GoodRes : ArrState :=
  ⟨["box"], ["n"], [("box", PyAttr.ndarray [1]), ("n", PyAttr.val (Val.int 5))],
   [("box", true)], [("n", Val.int 5)]⟩

/-- A state with a pointer field that has no attribute bound. -/
def c7Bad : ArrState := ⟨["box"], [], [], [], []⟩

/-- The record whose rendered-string sort order differs from sort-by-name. -/
def c8Rec : SWD := constructSWD ⟨"Cls", [("a0", Val.int 1), ("a", Val.int 2)], []⟩ []

/-- Class for the constructor-ignores-unknown-keys claim. -/
def c9Class : SWDClass := ⟨"Params", [("a", Val.int 1), ("b", Val.int 2)], []⟩

/-! ## Helper lemmas: association lists and the constructor/update folds -/

theorem swdHashFuel_none (funcHash : Nat) (s : SWD) : ∀ n, swdHashFuel funcHash s n = none := by
  intro n
  induction n with
  | zero => rfl
  | succ n ih => simp [swdHashFuel, ih]

theorem alookup_setKey_self {β : Type} (l : List (String × β)) (k : String) (v : β) :
    alookup (setKey l k v) k = some v := by
  induction l with
  | nil => simp [setKey, alookup]
  | cons hd t ih =>
    by_cases h : hd.1 = k
    · simp [setKey, h, alookup]
    · simp [setKey, h, alookup, ih]

theorem alookup_setKey_ne {β : Type} (l : List (String × β)) (k k' : String) (v : β)
    (h : k ≠ k') : alookup (setKey l k v) k' = alookup l k' := by
  induction l with
  | nil => simp [setKey, alookup, h]
  | cons hd t ih =>
    by_cases hh : hd.1 = k
    · simp [setKey, hh, alookup, h]
    · simp [setKey, hh, alookup, ih]

theorem mergeOver_alookup_notin (pf : List String) (kwargs : List (String × Val))
    (ds : List (String × Val)) (a : List (String × Val)) (key : String)
    (h : key ∉ ds.map (fun kd => storageKey pf kd.1)) :
    alookup (mergeOver pf kwargs ds a) key = alookup a key := by
  induction ds generalizing a with
  | nil => rfl
  | cons kd t ih =>
    simp only [List.map_cons, List.mem_cons, not_or] at h
    obtain ⟨h1, h2⟩ := h
    simp only [mergeOver]
    cases alookup kwargs kd.1 with
    | none => exact ih a h2
    | some v =>
      rw [ih _ h2, alookup_setKey_ne _ _ _ _ (fun he => h1 he.symm)]

theorem mergeOver_alookup_mem (pf : List String) (kwargs : List (String × Val))
    (ds : List (String × Val)) (a : List (String × Val)) (k : String) (d v : Val)
    (hmem : (k, d) ∈ ds) (hnd : (ds.map (fun kd => storageKey pf kd.1)).Nodup)
    (hkw : alookup kwargs k = some v) :
    alookup (mergeOver pf kwargs ds a) (storageKey pf k) = some v := by
  induction ds generalizing a with
  | nil => simp at hmem
  | cons hd t ih =>
    simp only [List.map_cons, List.nodup_cons] at hnd
    obtain ⟨hnotin, hnd'⟩ := hnd
    rcases List.mem_cons.mp hmem with heq | hmem'
    · have hk : hd.1 = k := by rw [← heq]
      subst hk
      simp only [mergeOver, hkw]
      rw [mergeOver_alookup_notin _ _ _ _ _ hnotin]
      exact alookup_setKey_self _ _ _
    · simp only [mergeOver]
      cases alookup kwargs hd.1 with
      | none => exact ih _ hmem' hnd'
      | some w => exact ih _ hmem' hnd'

theorem mergeOver_alookup_nokw (pf : List String) (kwargs : List (String × Val))
    (ds : List (String × Val)) (a : List (String × Val)) (k : String) (d : Val)
    (hmem : (k, d) ∈ ds) (hnd : (ds.map (fun kd => storageKey pf kd.1)).Nodup)
    (hkw : alookup kwargs k = none) :
    alookup (mergeOver pf kwargs ds a) (storageKey pf k) = alookup a (storageKey pf k) := by
  induction ds generalizing a with
  | nil => simp at hmem
  | cons hd t ih =>
    simp only [List.map_cons, List.nodup_cons] at hnd
    obtain ⟨hnotin, hnd'⟩ := hnd
    rcases List.mem_cons.mp hmem with heq | hmem'
    · have hk : hd.1 = k := by rw [← heq]
      subst hk
      simp only [mergeOver, hkw]
      exact mergeOver_alookup_notin _ _ _ _ _ hnotin
    · have hne : storageKey pf hd.1 ≠ storageKey pf k := by
        intro he
        exact hnotin (he ▸ List.mem_map_of_mem (fun kd => storageKey pf kd.1) hmem')
      simp only [mergeOver]
      cases alookup kwargs hd.1 with
      | none => exact ih _ hmem' hnd'
      | some w =>
        rw [ih _ hmem' hnd', alookup_setKey_ne _ _ _ _ hne]

theorem buildOver_alookup_notin (pf : List String) (kwargs : List (String × Val))
    (ds : List (String × Val)) (a : List (String × Val)) (key : String)
    (h : key ∉ ds.map (fun kd => storageKey pf kd.1)) :
    alookup (buildOver pf kwargs ds a) key = alookup a key := by
  induction ds generalizing a with
  | nil => rfl
  | cons kd t ih =>
    simp only [List.map_cons, List.mem_cons, not_or] at h
    obtain ⟨h1, h2⟩ := h
    simp only [buildOver]
    rw [ih _ h2, alookup_setKey_ne _ _ _ _ (fun he => h1 he.symm)]

theorem buildOver_alookup_mem (pf : List String) (kwargs : List (String × Val))
    (ds : List (String × Val)) (a : List (String × Val)) (k : String) (d : Val)
    (hmem : (k, d) ∈ ds) (hnd : (ds.map (fun kd => storageKey pf kd.1)).Nodup) :
    alookup (buildOver pf kwargs ds a) (storageKey pf k) =
      some ((alookup kwargs k).getD d) := by
  induction ds generalizing a with
  | nil => simp at hmem
  | cons hd t ih =>
    simp only [List.map_cons, List.nodup_cons] at hnd
    obtain ⟨hnotin, hnd'⟩ := hnd
    rcases List.mem_cons.mp hmem with heq | hmem'
    · have hk : hd.1 = k := by rw [← heq]
      have hd2 : hd.2 = d := by rw [← heq]
      subst hk
      simp only [buildOver, hd2]
      rw [buildOver_alookup_notin _ _ _ _ _ hnotin]
      exact alookup_setKey_self _ _ _
    · simp only [buildOver]
      exact ih _ hmem' hnd'

theorem update_warned_iff (s : SWD) (kwargs : List (String × Val)) (z : String) :
    z ∈ (s.update kwargs).warned ↔
      z ∈ kwargs.map Prod.fst ∧ z ∉ s.defaults.map Prod.fst := by
  have hw : (s.update kwargs).warned =
      (kwargs.filter (fun kv => !(s.defaults.any (fun kd => kd.1 == kv.1)))).map Prod.fst := by
    unfold SWD.update
    by_cases h : s.cstructAlloc <;> simp [h]
  rw [hw]
  constructor
  · intro hmem
    obtain ⟨kv, hkv, hz⟩ := List.mem_map.mp hmem
    obtain ⟨hkvmem, hpred⟩ := List.mem_filter.mp hkv
    subst hz
    refine ⟨List.mem_map_of_mem Prod.fst hkvmem, ?_⟩
    intro hin
    obtain ⟨kd, hkd, hfst⟩ := List.mem_map.mp hin
    have hany : s.defaults.any (fun kd => kd.1 == kv.1) = true :=
      List.any_eq_true.mpr ⟨kd, hkd, beq_iff_eq.mpr hfst⟩
    rw [hany] at hpred
    exact absurd hpred (by simp)
  · rintro ⟨hin, hnotin⟩
    obtain ⟨kv, hkv, hz⟩ := List.mem_map.mp hin
    subst hz
    refine List.mem_map.mpr ⟨kv, List.mem_filter.mpr ⟨hkv, ?_⟩, rfl⟩
    have hany : s.defaults.any (fun kd => kd.1 == kv.1) = false := by
      by_contra hb
      rw [Bool.not_eq_false, List.any_eq_true] at hb
      obtain ⟨kd, hkd, hbe⟩ := hb
      exact hnotin (List.mem_map.mpr ⟨kd, hkd, beq_iff_eq.mp hbe⟩)
    rw [hany]
    rfl

theorem update_err_eq (s : SWD) (kwargs : List (String × Val)) :
    (s.update kwargs).err = (if s.cstructAlloc then none else some PyErr.attributeError) := by
  unfold SWD.update
  by_cases h : s.cstructAlloc <;> simp [h]

theorem update_state_attrs (s : SWD) (kwargs : List (String × Val)) :
    (s.update kwargs).state.attrs = mergeOver s.propertyFields kwargs s.defaults s.attrs ∧
    (s.update kwargs).state.propertyFields = s.propertyFields ∧
    (s.update kwargs).state.defaults = s.defaults := by
  unfold SWD.update
  by_cases h : s.cstructAlloc <;> simp [h]

/-! ## Helper lemmas: the string order and insertion sort -/

theorem charListLe_trans : ∀ a b c : List Char,
    charListLe a b = true → charListLe b c = true → charListLe a c = true := by
  intro a
  induction a with
  | nil => intro b c _ _; rfl
  | cons x xs ih =>
    intro b c hab hbc
    cases b with
    | nil => simp [charListLe] at hab
    | cons y ys =>
      cases c with
      | nil => simp [charListLe] at hbc
      | cons z zs =>
        simp only [charListLe] at hab hbc ⊢
        rcases Nat.lt_trichotomy x.toNat y.toNat with hxy | hxy | hxy
        · rcases Nat.lt_trichotomy y.toNat z.toNat with hyz | hyz | hyz
          · simp [show x.toNat < z.toNat by omega]
          · simp [show x.toNat < z.toNat by omega]
          · rw [if_neg (by omega), if_pos hyz] at hbc
            simp at hbc
        · rcases Nat.lt_trichotomy y.toNat z.toNat with hyz | hyz | hyz
          · simp [show x.toNat < z.toNat by omega]
          · rw [if_neg (by omega), if_neg (by omega)] at hab
            rw [if_neg (by omega), if_neg (by omega)] at hbc
            rw [if_neg (by omega), if_neg (by omega)]
            exact ih ys zs hab hbc
          · rw [if_neg (by omega), if_pos hyz] at hbc
            simp at hbc
        · rw [if_neg (by omega), if_pos hxy] at hab
          simp at hab

theorem charListLe_total : ∀ a b : List Char,
    charListLe a b = true ∨ charListLe b a = true := by
  intro a
  induction a with
  | nil => intro b; left; rfl
  | cons x xs ih =>
    intro b
    cases b with
    | nil => right; rfl
    | cons y ys =>
      simp only [charListLe]
      by_cases hxy : x.toNat < y.toNat
      · left; simp [hxy]
      · by_cases hyx : y.toNat < x.toNat
        · right; simp [hyx]
        · rcases ih ys with h | h
          · left; simp [hxy, hyx, h]
          · right; simp [hxy, hyx, h]

theorem pyStrLe_trans (a b c : String) (h1 : pyStrLe a b = true) (h2 : pyStrLe b c = true) :
    pyStrLe a c = true :=
  charListLe_trans a.data b.data c.data h1 h2

theorem pyStrLe_total (a b : String) : pyStrLe a b = true ∨ pyStrLe b a = true :=
  charListLe_total a.data b.data

theorem mem_insertBy {α : Type} (le : α → α → Bool) (x : α) (l : List α) (a : α) :
    a ∈ insertBy le x l ↔ a = x ∨ a ∈ l := by
  induction l with
  | nil => simp [insertBy]
  | cons y t ih =>
    simp only [insertBy]
    by_cases h : le x y = true
    · rw [if_pos h]
      simp only [List.mem_cons]
    · rw [if_neg h]
      simp only [List.mem_cons, ih]
      tauto

theorem insertBy_permCons {α : Type} (le : α → α → Bool) (x : α) (l : List α) :
    List.Perm (insertBy le x l) (x :: l) := by
  induction l with
  | nil => exact List.Perm.refl _
  | cons y t ih =>
    simp only [insertBy]
    by_cases h : le x y = true
    · rw [if_pos h]
    · rw [if_neg h]
      exact (ih.cons y).trans (List.Perm.swap x y t)

theorem sortBy_perm {α : Type} (le : α → α → Bool) (l : List α) :
    List.Perm (sortBy le l) l := by
  induction l with
  | nil => exact List.Perm.refl _
  | cons x t ih =>
    exact (insertBy_permCons le x (sortBy le t)).trans (ih.cons x)

theorem insertBy_sorted {α : Type} (le : α → α → Bool)
    (htrans : ∀ a b c, le a b = true → le b c = true → le a c = true)
    (htotal : ∀ a b, le a b = true ∨ le b a = true)
    (x : α) (l : List α) (hl : l.Pairwise (fun a b => le a b = true)) :
    (insertBy le x l).Pairwise (fun a b => le a b = true) := by
  induction l with
  | nil => simp [insertBy]
  | cons y t ih =>
    rcases List.pairwise_cons.mp hl with ⟨hy, ht⟩
    simp only [insertBy]
    by_cases h : le x y = true
    · rw [if_pos h]
      refine List.pairwise_cons.mpr ⟨?_, hl⟩
      intro b hb
      rcases List.mem_cons.mp hb with rfl | hb2
      · exact h
      · exact htrans x y b h (hy b hb2)
    · rw [if_neg h]
      refine List.pairwise_cons.mpr ⟨?_, ih ht⟩
      intro b hb
      rcases (mem_insertBy le x t b).mp hb with rfl | hb2
      · rcases htotal b y with h1 | h2
        · exact absurd h1 h
        · exact h2
      · exact hy b hb2

theorem sortBy_sorted {α : Type} (le : α → α → Bool)
    (htrans : ∀ a b c, le a b = true → le b c = true → le a c = true)
    (htotal : ∀ a b, le a b = true ∨ le b a = true) (l : List α) :
    (sortBy le l).Pairwise (fun a b => le a b = true) := by
  induction l with
  | nil => simp [sortBy]
  | cons x t ih =>
    exact insertBy_sorted le htrans htotal x (sortBy le t) ih

/-! ## Helper lemmas: representation congruence -/

theorem definingPairs_congr (s1 s2 : SWD)
    (hd : s1.defaults.map Prod.fst = s2.defaults.map Prod.fst)
    (hv : ∀ k, k ∈ s1.defaults.map Prod.fst → pyStartsWith k "RANDOM_SEED" = false →
      s1.getattrPy k = s2.getattrPy k) :
    s1.definingPairs? = s2.definingPairs? := by
  unfold SWD.definingPairs?
  rw [← hd]
  have hsub : ∀ ks : List String, (∀ k ∈ ks, k ∈ s1.defaults.map Prod.fst) →
      mapOptM (fun k => (s1.getattrPy k).map (fun v => (k, v)))
        (ks.filter (fun k => !(pyStartsWith k "RANDOM_SEED"))) =
      mapOptM (fun k => (s2.getattrPy k).map (fun v => (k, v)))
        (ks.filter (fun k => !(pyStartsWith k "RANDOM_SEED"))) := by
    intro ks
    induction ks with
    | nil => intro _; rfl
    | cons k t ih =>
      intro hall
      have hk := hall k (List.mem_cons_self k t)
      have ht : ∀ k' ∈ t, k' ∈ s1.defaults.map Prod.fst :=
        fun k' hk' => hall k' (List.mem_cons_of_mem k hk')
      by_cases hrs : pyStartsWith k "RANDOM_SEED" = false
      · have hfk : (List.filter (fun k => !(pyStartsWith k "RANDOM_SEED")) (k :: t)) =
            k :: List.filter (fun k => !(pyStartsWith k "RANDOM_SEED")) t := by
          simp [List.filter_cons, hrs]
        rw [hfk]
        simp only [mapOptM]
        rw [hv k hk hrs, ih ht]
      · have hrs2 : pyStartsWith k "RANDOM_SEED" = true := by
          revert hrs
          cases pyStartsWith k "RANDOM_SEED" <;> simp
        have hfk : (List.filter (fun k => !(pyStartsWith k "RANDOM_SEED")) (k :: t)) =
            List.filter (fun k => !(pyStartsWith k "RANDOM_SEED")) t := by
          simp [List.filter_cons, hrs2]
        rw [hfk, ih ht]
  exact hsub (s1.defaults.map Prod.fst) (fun k hk => hk)

theorem reprS_congr (s1 s2 : SWD) (hc : s1.className = s2.className)
    (hd : s1.defaults.map Prod.fst = s2.defaults.map Prod.fst)
    (hv : ∀ k, k ∈ s1.defaults.map Prod.fst → pyStartsWith k "RANDOM_SEED" = false →
      s1.getattrPy k = s2.getattrPy k) :
    s1.reprS? = s2.reprS? := by
  unfold SWD.reprS?
  rw [definingPairs_congr s1 s2 hd hv, hc]

theorem mapOptM_mem {α β : Type} (f : α → Option β) :
    ∀ (ks : List α) (l : List β), mapOptM f ks = some l →
      ∀ y ∈ l, ∃ x ∈ ks, f x = some y := by
  intro ks
  induction ks with
  | nil =>
    intro l hl y hy
    simp only [mapOptM, Option.some.injEq] at hl
    subst hl
    simp at hy
  | cons x t ih =>
    intro l hl y hy
    simp only [mapOptM] at hl
    cases hfx : f x with
    | none => rw [hfx] at hl; simp at hl
    | some y0 =>
      rw [hfx] at hl
      cases hrest : mapOptM f t with
      | none => rw [hrest] at hl; simp at hl
      | some ys =>
        rw [hrest] at hl
        simp only [Option.some.injEq] at hl
        subst hl
        rcases List.mem_cons.mp hy with rfl | hmem
        · exact ⟨x, List.mem_cons_self _ _, hfx⟩
        · rcases ih ys hrest y hmem with ⟨x2, hx2, hfx2⟩
          exact ⟨x2, List.mem_cons_of_mem _ hx2, hfx2⟩

theorem definingPairs_mem (s : SWD) (l : List (String × Val))
    (h : s.definingPairs? = some l) :
    ∀ kv ∈ l, kv.1 ∈ s.defaults.map Prod.fst ∧
      pyStartsWith kv.1 "RANDOM_SEED" = false ∧ s.getattrPy kv.1 = some kv.2 := by
  unfold SWD.definingPairs? at h
  intro kv hkv
  rcases mapOptM_mem _ _ _ h kv hkv with ⟨k, hkmem, hfk⟩
  rcases List.mem_filter.mp hkmem with ⟨hmem2, hpred⟩
  cases hga : s.getattrPy k with
  | none => rw [hga] at hfk; simp at hfk
  | some v =>
    rw [hga] at hfk
    have hfk2 : (k, v) = kv := by simpa using hfk
    subst hfk2
    refine ⟨hmem2, ?_, hga⟩
    revert hpred
    cases pyStartsWith k "RANDOM_SEED" <;> simp

/-! ## Helper lemmas: array initialization and read -/

theorem bindPointers_missing (attrs : List (String × PyAttr)) :
    ∀ (ks : List String) (cptr : List (String × Bool)),
    (∀ k v, k ∈ ks → alookup attrs k = some v → ∃ d, v = PyAttr.ndarray d) →
    (∃ k, k ∈ ks ∧ alookup attrs k = none) →
    bindPointers attrs ks cptr = .error InitErr.structInvalid := by
  intro ks
  induction ks with
  | nil =>
    intro cptr _ hex
    rcases hex with ⟨k, hk, _⟩
    simp at hk
  | cons k0 t ih =>
    intro cptr hnd hex
    simp only [bindPointers]
    cases ha : alookup attrs k0 with
    | none => rfl
    | some v =>
      rcases hnd k0 v (List.mem_cons_self _ _) ha with ⟨d, rfl⟩
      rcases hex with ⟨k, hk, hknone⟩
      rcases List.mem_cons.mp hk with rfl | hkt
      · rw [ha] at hknone; exact absurd hknone (by simp)
      · exact ih _ (fun k' v' hk' => hnd k' v' (List.mem_cons_of_mem _ hk'))
          ⟨k, hkt, hknone⟩

theorem fillDatasets_ne_notFound (ds : List (String × List Int))
    (attrs : List (String × PyAttr)) :
    fillDatasets attrs ds ≠ .error ReadErr.notFound := by
  induction ds generalizing attrs with
  | nil => simp [fillDatasets]
  | cons hd t ih =>
    simp only [fillDatasets]
    cases alookup attrs hd.1 with
    | none => simp
    | some a =>
      cases a with
      | val v => simp
      | ndarray d =>
        exact ih _

theorem readBody_ne_notFound (st1 : OState) (content : H5Content) :
    readBody st1 content ≠ Except.error ReadErr.notFound := by
  unfold readBody
  cases hg : alookup content.groups st1.name with
  | none => simp
  | some boxes =>
    cases hfd : fillDatasets st1.arr.attrs boxes.datasets with
    | error e =>
      intro hc
      simp [hfd] at hc
      exact fillDatasets_ne_notFound _ _ (by rw [hfd, hc])
    | ok attrs1 =>
      cases hcg : alookup content.groups "cosmo" with
      | none => simp [hfd, hcg]
      | some cg =>
        cases hsv : alookup cg.attrs "RANDOM_SEED" with
        | none => simp [hfd, hcg, hsv]
        | some sv => simp [hfd, hcg, hsv]

theorem readAfterFind_ne_notFound (initArrays : InitArraysPolicy) (fs : FS)
    (p : String × FileName) (st : OState) :
    readAfterFind initArrays fs p st ≠ Except.error ReadErr.notFound := by
  unfold readAfterFind
  by_cases hinit : arraysInitialized st.arr
  · simp only [hinit, if_true]
    cases hf : lookupFile fs p with
    | none => simp
    | some content => simpa [hf] using readBody_ne_notFound st content
  · simp only [hinit, if_false]
    cases hic : initCstruct initArrays st.arr with
    | error e => simp [hic]
    | ok a =>
      cases hf : lookupFile fs p with
      | none => simp [hic]
      | some content =>
        simpa [hic, hf] using readBody_ne_notFound { st with arr := a } content

/-! ## Helper lemmas: single-field sensitivity of the representation -/

theorem mapOptM_congr {α β : Type} (f g : α → Option β) :
    ∀ ks : List α, (∀ x ∈ ks, f x = g x) → mapOptM f ks = mapOptM g ks := by
  intro ks
  induction ks with
  | nil => intro _; rfl
  | cons x t ih =>
    intro h
    simp only [mapOptM]
    rw [h x (List.mem_cons_self x t), ih (fun y hy => h y (List.mem_cons_of_mem x hy))]

theorem mapOptM_single_diff {α β : Type} [DecidableEq α] (f1 f2 : α → Option β) (k : α) :
    ∀ (ks : List α) (l1 l2 : List β), ks.Nodup → k ∈ ks →
      (∀ x ∈ ks, x ≠ k → f1 x = f2 x) →
      mapOptM f1 ks = some l1 → mapOptM f2 ks = some l2 →
      ∃ y1 y2 pre post, f1 k = some y1 ∧ f2 k = some y2 ∧
        l1 = pre ++ y1 :: post ∧ l2 = pre ++ y2 :: post := by
  intro ks
  induction ks with
  | nil =>
    intro l1 l2 _ hk
    simp at hk
  | cons x t ih =>
    intro l1 l2 hnd hk hpt h1 h2
    rcases List.nodup_cons.mp hnd with ⟨hxt, hndt⟩
    simp only [mapOptM] at h1 h2
    cases hf1x : f1 x with
    | none => rw [hf1x] at h1; simp at h1
    | some y1x =>
      rw [hf1x] at h1
      cases ht1 : mapOptM f1 t with
      | none => rw [ht1] at h1; simp at h1
      | some t1 =>
        rw [ht1] at h1
        simp only [Option.some.injEq] at h1
        cases hf2x : f2 x with
        | none => rw [hf2x] at h2; simp at h2
        | some y2x =>
          rw [hf2x] at h2
          cases ht2 : mapOptM f2 t with
          | none => rw [ht2] at h2; simp at h2
          | some t2 =>
            rw [ht2] at h2
            simp only [Option.some.injEq] at h2
            subst h1
            subst h2
            by_cases hxk : x = k
            · subst hxk
              have hcong : mapOptM f1 t = mapOptM f2 t :=
                mapOptM_congr f1 f2 t
                  (fun y hy => hpt y (List.mem_cons_of_mem x hy)
                    (fun he => hxt (he ▸ hy)))
              rw [ht1, ht2] at hcong
              have ht12 : t1 = t2 := Option.some.inj hcong
              exact ⟨y1x, y2x, [], t1, hf1x, hf2x, rfl, by rw [ht12]; rfl⟩
            · have hkt : k ∈ t := by
                rcases List.mem_cons.mp hk with h | h
                · exact absurd h.symm hxk
                · exact h
              have hfx : f1 x = f2 x := hpt x (List.mem_cons_self x t) hxk
              have hy12 : y1x = y2x := by
                rw [hfx, hf2x] at hf1x
                exact (Option.some.inj hf1x).symm
              obtain ⟨y1, y2, pre, post, a1, a2, a3, a4⟩ :=
                ih t1 t2 hndt hkt
                  (fun y hy hne => hpt y (List.mem_cons_of_mem x hy) hne) ht1 ht2
              exact ⟨y1, y2, y1x :: pre, post, a1, a2, by rw [a3]; rfl, by rw [hy12, a4]; rfl⟩

theorem strAppend_cancel_left (a s1 s2 : String) (h : a ++ s1 = a ++ s2) : s1 = s2 := by
  have hd := congrArg String.data h
  rw [String.data_append, String.data_append] at hd
  exact String.ext (List.append_cancel_left hd)

theorem cons_perm_cons_eq {α : Type} {x y : α} {l : List α}
    (h : List.Perm (x :: l) (y :: l)) : x = y := by
  have hm : ((x :: l : List α) : Multiset α) = ((y :: l : List α) : Multiset α) :=
    Multiset.coe_eq_coe.mpr h
  rw [← Multiset.cons_coe, ← Multiset.cons_coe] at hm
  exact (Multiset.cons_inj_left _).mp hm

theorem sortBy_eq_perm {α : Type} (le : α → α → Bool) (l1 l2 : List α)
    (h : sortBy le l1 = sortBy le l2) : List.Perm l1 l2 :=
  (sortBy_perm le l1).symm.trans (h.symm ▸ sortBy_perm le l2)

theorem definingPairs_single_diff (r1 r2 : SWD) (k : String) (v1 v2 : Val)
    (l1 l2 : List (String × Val))
    (hch : SingleFieldChange r1 r2 k v1 v2)
    (hnd : (r1.defaults.map Prod.fst).Nodup)
    (hl1 : r1.definingPairs? = some l1) (hl2 : r2.definingPairs? = some l2) :
    ∃ pre post, l1 = pre ++ (k, v1) :: post ∧ l2 = pre ++ (k, v2) :: post := by
  obtain ⟨hcls, hkeys, hkmem, hknv, hg1, hg2, hrest⟩ := hch
  have hl1b : mapOptM (fun k2 => (r1.getattrPy k2).map (fun v => (k2, v)))
      ((r1.defaults.map Prod.fst).filter (fun x => !(pyStartsWith x "RANDOM_SEED"))) =
      some l1 := hl1
  have hl2b : mapOptM (fun k2 => (r2.getattrPy k2).map (fun v => (k2, v)))
      ((r1.defaults.map Prod.fst).filter (fun x => !(pyStartsWith x "RANDOM_SEED"))) =
      some l2 := by
    rw [hkeys]
    exact hl2
  have hksnd : ((r1.defaults.map Prod.fst).filter
      (fun x => !(pyStartsWith x "RANDOM_SEED"))).Nodup := hnd.filter _
  have hkin : k ∈ (r1.defaults.map Prod.fst).filter
      (fun x => !(pyStartsWith x "RANDOM_SEED")) := by
    refine List.mem_filter.mpr ⟨hkmem, ?_⟩
    rw [hknv]
    rfl
  have hpt : ∀ x ∈ (r1.defaults.map Prod.fst).filter
      (fun x => !(pyStartsWith x "RANDOM_SEED")), x ≠ k →
      (fun k2 => (r1.getattrPy k2).map (fun v => (k2, v))) x =
      (fun k2 => (r2.getattrPy k2).map (fun v => (k2, v))) x := by
    intro x hx hne
    have hx2 := (List.mem_filter.mp hx).1
    simp only []
    rw [hrest x hx2 hne]
  obtain ⟨y1, y2, pre, post, hf1, hf2, e1, e2⟩ :=
    mapOptM_single_diff (fun k2 => (r1.getattrPy k2).map (fun v => (k2, v)))
      (fun k2 => (r2.getattrPy k2).map (fun v => (k2, v))) k
      ((r1.defaults.map Prod.fst).filter (fun x => !(pyStartsWith x "RANDOM_SEED")))
      l1 l2 hksnd hkin hpt hl1b hl2b
  simp only [hg1, Option.map_some] at hf1
  simp only [hg2, Option.map_some] at hf2
  have hy1 : y1 = (k, v1) := (Option.some.inj hf1).symm
  have hy2 : y2 = (k, v2) := (Option.some.inj hf2).symm
  subst hy1
  subst hy2
  exact ⟨pre, post, e1, e2⟩

theorem reprS_eq_renderedSorted (s : SWD) :
    SWD.reprS? s = (SWD.renderedSorted? s).map
      (fun r => s.className ++ "(" ++ String.intercalate ", " r ++ ")") := by
  unfold SWD.reprS? SWD.renderedSorted?
  rw [Option.map_map]
  rfl

theorem renderedSorted_single_diff (r1 r2 : SWD) (k : String) (v1 v2 : Val)
    (l1 l2 : List (String × Val))
    (hch : SingleFieldChange r1 r2 k v1 v2)
    (hnd : (r1.defaults.map Prod.fst).Nodup)
    (hl1 : r1.definingPairs? = some l1) (hl2 : r2.definingPairs? = some l2) :
    (SWD.renderedSorted? r1 = SWD.renderedSorted? r2 ↔ pyStr v1 = pyStr v2) ∧
    (pyStr v1 = pyStr v2 → SWD.reprS? r1 = SWD.reprS? r2) := by
  obtain ⟨pre, post, e1, e2⟩ := definingPairs_single_diff r1 r2 k v1 v2 l1 l2 hch hnd hl1 hl2
  have hrs1 : SWD.renderedSorted? r1 = some (sortBy pyStrLe (l1.map renderKV)) := by
    unfold SWD.renderedSorted?
    rw [hl1]
    rfl
  have hrs2 : SWD.renderedSorted? r2 = some (sortBy pyStrLe (l2.map renderKV)) := by
    unfold SWD.renderedSorted?
    rw [hl2]
    rfl
  have hmapeq : pyStr v1 = pyStr v2 → l1.map renderKV = l2.map renderKV := by
    intro hpv
    rw [e1, e2, List.map_append, List.map_cons, List.map_append, List.map_cons]
    have hr : renderKV (k, v1) = renderKV (k, v2) := by
      unfold renderKV
      rw [hpv]
    rw [hr]
  constructor
  · constructor
    · intro heq
      rw [hrs1, hrs2] at heq
      have hse := Option.some.inj heq
      have hperm : List.Perm (l1.map renderKV) (l2.map renderKV) :=
        sortBy_eq_perm pyStrLe _ _ hse
      rw [e1, e2, List.map_append, List.map_cons, List.map_append, List.map_cons] at hperm
      have hmid := (List.perm_middle).symm.trans (hperm.trans List.perm_middle)
      have hxy := cons_perm_cons_eq hmid
      exact strAppend_cancel_left (k ++ ":") (pyStr v1) (pyStr v2) hxy
    · intro hpv
      rw [hrs1, hrs2, hmapeq hpv]
  · intro hpv
    rw [reprS_eq_renderedSorted r1, reprS_eq_renderedSorted r2, hrs1, hrs2,
      hmapeq hpv, hch.1]

/-! ## Claim theorems -/

/-- C1: for two Parameter Records of the same kind agreeing on every
non-volatile field but differing in the volatile seed field, `__repr__`
yields equal strings and `__eq__` holds, as the claim states; but
`__hash__` (line 167, `hash(self.__repr__)`) hashes the *bound method*
rather than the string: CPython derives a bound method's hash from the
hash of its `__self__`, which re-enters `__hash__`, so the computation
diverges (no fuel yields a value) and no hash value exists - the claimed
hash agreement fails on the code, while the doc-level intent (hash of the
identity string) is clear. -/
theorem C1_identity_eq_hash (funcHash : Nat) :
    SWD.reprS? c1RecA = SWD.reprS? c1RecB ∧
    SWD.reprS? c1RecA = some "CosmoParams(SIGMA_8:8)" ∧
    SWD.eqPy? c1RecA c1RecB = some true ∧
    c1RecA.getattrPy "RANDOM_SEED" = some (Val.int 1) ∧
    c1RecB.getattrPy "RANDOM_SEED" = some (Val.int 2) ∧
    (∀ fuel, swdHashFuel funcHash c1RecA fuel = none) ∧
    (∀ fuel, swdHashFuel funcHash c1RecB fuel = none) :=
  ⟨by decide, by decide, by decide, by decide, by decide,
   swdHashFuel_none funcHash c1RecA, swdHashFuel_none funcHash c1RecB⟩

/-- C2: with `match_seed=True` the seed-insensitive wildcard search is
*still* performed in the default cache directory (lines 355-360 have no
`match_seed` guard), so a cache holding only a seed-1 file for a record
requesting seed 3 is matched even under `match_seed=True` - contradicting
the claim and the docstring ("force the random seed to also match").  The
given-directory branch (lines 351-353) does honor the flag: with the file
only in an explicitly given directory, `match_seed=True` finds nothing. -/
theorem C2_match_seed_eval :
    c2Locator.seed = 3 ∧
    findExisting c2FS "boxdir" c2Locator none none true =
      some ("boxdir", FileName.cache "Kind" "abc" 1) ∧
    findExisting c2FS "boxdir" c2Locator none none false =
      some ("boxdir", FileName.cache "Kind" "abc" 1) ∧
    findExisting c2FS2 "boxdir" c2Locator (some "mydir") none true = none ∧
    findExisting c2FS2 "boxdir" c2Locator (some "mydir") none false =
      some ("mydir", FileName.cache "Kind" "abc" 1) := by
  decide

/-- C8 counterexample: the canonical string uses `", "` as separator (line
161 joins with `", "`) and sorts the already-rendered `k:v` strings, not
the field names: on a record with fields `a0` and `a` the code yields
`Cls(a0:1, a:2)` while the claim's format (sorted by field name, `"; "`
separated) would be `Cls(a:2; a0:1)`. -/
theorem C8_counterexample :
    SWD.reprS? c8Rec = some "Cls(a0:1, a:2)" ∧
    SWD.reprSpec? c8Rec = some "Cls(a:2; a0:1)" ∧
    SWD.reprS? c8Rec ≠ SWD.reprSpec? c8Rec := by
  decide

/-- C8 (amended): `identity()`/`__repr__` returns
`ClassName(f1:v1, f2:v2, ...)` - the class name around the rendered
`name:value` strings of every non-volatile field, with the *rendered
strings* sorted lexicographically by code point and joined by `", "`. -/
theorem C8_repr_canonical (s : SWD) (l : List (String × Val))
    (h : s.definingPairs? = some l) :
    SWD.reprS? s = some (s.className ++ "(" ++
      String.intercalate ", " (sortBy pyStrLe (l.map renderKV)) ++ ")") ∧
    List.Perm (sortBy pyStrLe (l.map renderKV)) (l.map renderKV) ∧
    (sortBy pyStrLe (l.map renderKV)).Pairwise (fun a b => pyStrLe a b = true) ∧
    ∀ kv ∈ l, kv.1 ∈ s.defaults.map Prod.fst ∧
      pyStartsWith kv.1 "RANDOM_SEED" = false ∧ s.getattrPy kv.1 = some kv.2 := by
  refine ⟨?_, sortBy_perm _ _,
    sortBy_sorted _ pyStrLe_trans pyStrLe_total _, definingPairs_mem s l h⟩
  unfold SWD.reprS?
  rw [h]
  rfl

/-- C8 witness: the amended canonical form evaluated on the concrete
record. -/
theorem C8_witness :
    SWD.reprS? c8Rec = some (c8Rec.className ++ "(" ++
      String.intercalate ", " (sortBy pyStrLe ([("a0", Val.int 1), ("a", Val.int 2)].map renderKV)) ++ ")") ∧
    List.Perm (sortBy pyStrLe ([("a0", Val.int 1), ("a", Val.int 2)].map renderKV))
      ([("a0", Val.int 1), ("a", Val.int 2)].map renderKV) :=
  ⟨(C8_repr_canonical c8Rec [("a0", Val.int 1), ("a", Val.int 2)] (by decide)).1,
   (C8_repr_canonical c8Rec [("a0", Val.int 1), ("a", Val.int 2)] (by decide)).2.1⟩

/-- C3 counterexample: the composing Parameter Records' `__repr__` (which
line 480 feeds to md5) excludes `RANDOM_SEED*` fields, so two Artifact
Records differing only in the volatile seed field have the *same* repr
string and hence the same fingerprint - refuting "changing any single
field ... including the volatile seed field - changes the fingerprint".
Moreover the repr renders values through `str()`, so even a change to a
single *non-volatile* field need not change the fingerprint: replacing the
integer 8 by the string "8" (same rendering) leaves the repr, and hence
the md5 input, unchanged - refuting the universal sensitivity part of the
claim as well. -/
theorem C3_counterexample :
    OState.reprS? c3A = OState.reprS? c3B ∧
    c3A.cosmo_params.getattrPy "RANDOM_SEED" = some (Val.int 1) ∧
    c3B.cosmo_params.getattrPy "RANDOM_SEED" = some (Val.int 2) ∧
    OState.reprS? c3A = OState.reprS? c3D ∧
    c3A.cosmo_params.getattrPy "SIGMA_8" = some (Val.int 8) ∧
    c3D.cosmo_params.getattrPy "SIGMA_8" = some (Val.str "8") := by
  decide

/-- C3 (amended): the fingerprint is the hash of the concatenated
composing-record representations taken over their *non-volatile* field
sets (seed excluded).  Conjunct 1: records agreeing on all non-volatile
fields - in particular records with identical full field sets, seed
included - produce the same hash input, hence the same fingerprint, and
changing the seed never changes it.  Conjunct 2: a concrete non-volatile
change that does alter the repr string.  Conjunct 3: the representation is
built from the record's sorted rendered `name:value` list.  Conjuncts 4-5
(universal single-field sensitivity): changing a single non-volatile field
of a composing record changes that sorted rendered list - and with it the
hash input - exactly when it changes the field's textual rendering; when
the renderings coincide (e.g. int 8 versus string "8") the representation,
and hence the fingerprint, is unchanged. -/
theorem C3_fingerprint_input (o1 o2 : OState) (hn : o1.name = o2.name)
    (hu1 : o1.user_params.className = o2.user_params.className)
    (hu2 : o1.user_params.defaults.map Prod.fst = o2.user_params.defaults.map Prod.fst)
    (hu3 : ∀ k, k ∈ o1.user_params.defaults.map Prod.fst →
      pyStartsWith k "RANDOM_SEED" = false →
      o1.user_params.getattrPy k = o2.user_params.getattrPy k)
    (hc1 : o1.cosmo_params.className = o2.cosmo_params.className)
    (hc2 : o1.cosmo_params.defaults.map Prod.fst = o2.cosmo_params.defaults.map Prod.fst)
    (hc3 : ∀ k, k ∈ o1.cosmo_params.defaults.map Prod.fst →
      pyStartsWith k "RANDOM_SEED" = false →
      o1.cosmo_params.getattrPy k = o2.cosmo_params.getattrPy k)
    (r1 r2 : SWD) (k : String) (v1 v2 : Val) (l1 l2 : List (String × Val))
    (hch : SingleFieldChange r1 r2 k v1 v2)
    (hrnd : (r1.defaults.map Prod.fst).Nodup)
    (hl1 : r1.definingPairs? = some l1) (hl2 : r2.definingPairs? = some l2) :
    OState.reprS? o1 = OState.reprS? o2 ∧
    OState.reprS? c3A ≠ OState.reprS? c3C ∧
    SWD.reprS? r1 = (SWD.renderedSorted? r1).map
      (fun r => r1.className ++ "(" ++ String.intercalate ", " r ++ ")") ∧
    (SWD.renderedSorted? r1 = SWD.renderedSorted? r2 ↔ pyStr v1 = pyStr v2) ∧
    (pyStr v1 = pyStr v2 → SWD.reprS? r1 = SWD.reprS? r2) := by
  obtain ⟨hiff, himp⟩ := renderedSorted_single_diff r1 r2 k v1 v2 l1 l2 hch hrnd hl1 hl2
  refine ⟨?_, by decide, reprS_eq_renderedSorted r1, hiff, himp⟩
  unfold OState.reprS?
  rw [reprS_congr o1.user_params o2.user_params hu1 hu2 hu3,
    reprS_congr o1.cosmo_params o2.cosmo_params hc1 hc2 hc3, hn]

/-- C3 witness: the amended statement applied to the concrete Artifact
Records that differ only in the volatile seed, and to the single-field
change SIGMA_8 from 8 to 9, whose renderings differ. -/
theorem C3_witness :
    OState.reprS? c3A = OState.reprS? c3B ∧
    OState.reprS? c3A ≠ OState.reprS? c3C ∧
    (SWD.renderedSorted? c3CosmoA = SWD.renderedSorted? c3CosmoC ↔
      pyStr (Val.int 8) = pyStr (Val.int 9)) := by
  have h := C3_fingerprint_input c3A c3B rfl rfl rfl (by decide) rfl rfl (by decide)
    c3CosmoA c3CosmoC "SIGMA_8" (Val.int 8) (Val.int 9)
    [("SIGMA_8", Val.int 8)] [("SIGMA_8", Val.int 9)]
    (by decide) (by decide) (by decide) (by decide)
  exact ⟨h.1, h.2.1, h.2.2.2.1⟩

/-- C4: `update` with a keyword set containing unrecognized keys applies
every recognized key's override, leaves every default field not mentioned
at its previous value, warns exactly the rejected (unrecognized) keys, and
its only exception - the `delattr` `AttributeError` of line 125 - depends
solely on whether the cached cstruct exists, never on the unrecognized
keys (so with the cstruct present, nothing is raised). -/
theorem C4_update_merge (s : SWD) (kwargs : List (String × Val))
    (hnd : (s.defaults.map (fun kd => storageKey s.propertyFields kd.1)).Nodup) :
    (∀ k d v, (k, d) ∈ s.defaults → alookup kwargs k = some v →
      (s.update kwargs).state.getattrPy k = some v) ∧
    (∀ k d, (k, d) ∈ s.defaults → alookup kwargs k = none →
      (s.update kwargs).state.getattrPy k = s.getattrPy k) ∧
    (∀ z, z ∈ (s.update kwargs).warned ↔
      z ∈ kwargs.map Prod.fst ∧ z ∉ s.defaults.map Prod.fst) ∧
    (s.update kwargs).err = (if s.cstructAlloc then none else some PyErr.attributeError) := by
  obtain ⟨ha, hp, hdd⟩ := update_state_attrs s kwargs
  refine ⟨?_, ?_, fun z => update_warned_iff s kwargs z, update_err_eq s kwargs⟩
  · intro k d v hmem hkw
    unfold SWD.getattrPy
    rw [ha, hp]
    exact mergeOver_alookup_mem s.propertyFields kwargs s.defaults s.attrs k d v hmem hnd hkw
  · intro k d hmem hkw
    unfold SWD.getattrPy
    rw [ha, hp]
    exact mergeOver_alookup_nokw s.propertyFields kwargs s.defaults s.attrs k d hmem hnd hkw

/-- C4 witness: defaults `{a:1, b:2}` updated with `{a:5, z:9}` (cstruct
present) yields `a=5`, `b=2`, warns exactly `z`, and raises nothing. -/
theorem C4_witness :
    (c4Rec.update c4Kwargs).state.getattrPy "a" = some (Val.int 5) ∧
    (c4Rec.update c4Kwargs).state.getattrPy "b" = some (Val.int 2) ∧
    ("z" ∈ (c4Rec.update c4Kwargs).warned ↔
      "z" ∈ c4Kwargs.map Prod.fst ∧ "z" ∉ c4Rec.defaults.map Prod.fst) ∧
    (c4Rec.update c4Kwargs).err = none := by
  have h := C4_update_merge c4Rec c4Kwargs (by decide)
  refine ⟨h.1 "a" (Val.int 1) (Val.int 5) (by decide) (by decide), ?_, h.2.2.1 "z", ?_⟩
  · rw [h.2.1 "b" (Val.int 2) (by decide) (by decide)]
    decide
  · rw [h.2.2.2]
    decide

/-- C9: constructor keyword arguments whose names are outside the default
field set are silently ignored - the built instance dictionary holds no
binding for them and `getattr` fails on them, and the constructor emits no
warning and raises nothing (it is a total function in the model); by
contrast, `update` called with the same keyword set warns about exactly
those keys. -/
theorem C9_construct_ignores (cls : SWDClass) (kwargs : List (String × Val)) (z : String)
    (hz1 : z ∉ cls.defaults.map Prod.fst)
    (hz2 : z ∉ cls.defaults.map (fun kd => storageKey cls.propertyFields kd.1))
    (hz3 : z ∉ cls.propertyFields) :
    alookup (constructSWD cls kwargs).attrs z = none ∧
    (constructSWD cls kwargs).getattrPy z = none ∧
    (∀ v, (z, v) ∈ kwargs → z ∈ ((constructSWD cls kwargs).update kwargs).warned) := by
  have h1 : alookup (constructSWD cls kwargs).attrs z = none := by
    unfold constructSWD
    rw [buildOver_alookup_notin cls.propertyFields kwargs cls.defaults [] z hz2]
    rfl
  refine ⟨h1, ?_, ?_⟩
  · unfold SWD.getattrPy storageKey
    simp only [constructSWD]
    rw [if_neg hz3]
    rw [buildOver_alookup_notin cls.propertyFields kwargs cls.defaults [] z hz2]
    rfl
  · intro v hv
    rw [update_warned_iff]
    exact ⟨List.mem_map.mpr ⟨(z, v), hv, rfl⟩, hz1⟩

/-- C9 witness: constructing with `{a:5, z:9}` sets no attribute `z`,
while `update` with the same keyword set warns about `z`. -/
theorem C9_witness :
    alookup (constructSWD c9Class c4Kwargs).attrs "z" = none ∧
    (constructSWD c9Class c4Kwargs).getattrPy "z" = none ∧
    "z" ∈ ((constructSWD c9Class c4Kwargs).update c4Kwargs).warned := by
  have h := C9_construct_ignores c9Class c4Kwargs "z" (by decide) (by decide) (by decide)
  exact ⟨h.1, h.2.1, h.2.2 (Val.int 9) (by decide)⟩

/-- C10: on a record whose hidden cached cstruct attribute does not exist,
*every* `update` call - whatever its keyword set - ends in the
`AttributeError` from `delattr` (line 125), and by then the field merges
and the warning (if any) have already taken effect: update is not atomic
in that case. -/
theorem C10_update_delattr (s : SWD) (kwargs : List (String × Val))
    (halloc : s.cstructAlloc = false)
    (hnd : (s.defaults.map (fun kd => storageKey s.propertyFields kd.1)).Nodup) :
    (s.update kwargs).err = some PyErr.attributeError ∧
    (∀ k d v, (k, d) ∈ s.defaults → alookup kwargs k = some v →
      (s.update kwargs).state.getattrPy k = some v) ∧
    (∀ z, z ∈ (s.update kwargs).warned ↔
      z ∈ kwargs.map Prod.fst ∧ z ∉ s.defaults.map Prod.fst) := by
  obtain ⟨ha, hp, hdd⟩ := update_state_attrs s kwargs
  refine ⟨?_, ?_, fun z => update_warned_iff s kwargs z⟩
  · rw [update_err_eq, halloc]
    rfl
  · intro k d v hmem hkw
    unfold SWD.getattrPy
    rw [ha, hp]
    exact mergeOver_alookup_mem s.propertyFields kwargs s.defaults s.attrs k d v hmem hnd hkw

/-- C10 witness: a fresh record (no cstruct ever materialized) updated
with only the recognized key `a` still raises `AttributeError`, yet the
merge has taken effect. -/
theorem C10_witness :
    (c10Rec.update [("a", Val.int 5)]).err = some PyErr.attributeError ∧
    (c10Rec.update [("a", Val.int 5)]).state.getattrPy "a" = some (Val.int 5) := by
  have h := C10_update_delattr c10Rec [("a", Val.int 5)] (by decide) (by decide)
  exact ⟨h.1, h.2.1 "a" (Val.int 1) (Val.int 5) (by decide) (by decide)⟩

/-- Success of `readBody` pins down the shape of the resulting state: the
`cosmo` group and its seed attribute were found, the hidden seed slot was
overwritten with the stored value, and `filled` was set. -/
theorem readBody_ok (st1 st' : OState) (content : H5Content)
    (hok : readBody st1 content = Except.ok st') :
    st'.filled = true ∧
    st'.cosmo_params.propertyFields = st1.cosmo_params.propertyFields ∧
    ∃ cg sv, alookup content.groups "cosmo" = some cg ∧
      alookup cg.attrs "RANDOM_SEED" = some sv ∧
      st'.cosmo_params.attrs = setKey st1.cosmo_params.attrs "_RANDOM_SEED" sv := by
  unfold readBody at hok
  cases hg : alookup content.groups st1.name with
  | none => simp [hg] at hok
  | some boxes =>
    simp only [hg] at hok
    cases hfd : fillDatasets st1.arr.attrs boxes.datasets with
    | error e => simp [hfd] at hok
    | ok attrs1 =>
      simp only [hfd] at hok
      cases hcg : alookup content.groups "cosmo" with
      | none => simp [hcg] at hok
      | some cg =>
        simp only [hcg] at hok
        cases hsv : alookup cg.attrs "RANDOM_SEED" with
        | none => simp [hsv] at hok
        | some sv =>
          simp only [hsv, Except.ok.injEq] at hok
          subst hok
          exact ⟨rfl, rfl, cg, sv, rfl, hsv, rfl⟩

/-- Success of `readAfterFind` behaves like `readBody` on the opened file,
with the parameter records carried over unchanged from the request. -/
theorem readAfterFind_ok (initArrays : InitArraysPolicy) (fs : FS) (p : String × FileName)
    (st st' : OState) (hok : readAfterFind initArrays fs p st = Except.ok st') :
    st'.filled = true ∧
    st'.cosmo_params.propertyFields = st.cosmo_params.propertyFields ∧
    ∃ content cg sv, lookupFile fs p = some content ∧
      alookup content.groups "cosmo" = some cg ∧
      alookup cg.attrs "RANDOM_SEED" = some sv ∧
      st'.cosmo_params.attrs = setKey st.cosmo_params.attrs "_RANDOM_SEED" sv := by
  unfold readAfterFind at hok
  by_cases hinit : arraysInitialized st.arr
  · simp only [hinit, if_true] at hok
    cases hf : lookupFile fs p with
    | none => simp [hf] at hok
    | some content =>
      simp only [hf] at hok
      obtain ⟨h1, h2, cg, sv, h3, h4, h5⟩ := readBody_ok st st' content hok
      exact ⟨h1, h2, content, cg, sv, rfl, h3, h4, h5⟩
  · simp only [hinit, if_false] at hok
    cases hic : initCstruct initArrays st.arr with
    | error e => simp [hic] at hok
    | ok a =>
      simp only [hic] at hok
      cases hf : lookupFile fs p with
      | none => simp [hf] at hok
      | some content =>
        simp only [hf] at hok
        obtain ⟨h1, h2, cg, sv, h3, h4, h5⟩ := readBody_ok { st with arr := a } st' content hok
        exact ⟨h1, h2, content, cg, sv, rfl, h3, h4, h5⟩

/-- Reading the seed field through its property after the hidden-slot write
returns exactly the written value. -/
theorem getattr_after_seed_write (cp : SWD) (attrs0 : List (String × Val)) (sv : Val)
    (hprop : "RANDOM_SEED" ∈ cp.propertyFields)
    (hattrs : cp.attrs = setKey attrs0 "_RANDOM_SEED" sv) :
    cp.getattrPy "RANDOM_SEED" = some sv := by
  unfold SWD.getattrPy storageKey
  rw [if_pos hprop, hattrs]
  exact alookup_setKey_self attrs0 "_RANDOM_SEED" sv

/-- C5: `find_existing` is a total function of the filesystem and its
arguments, returning a path or the explicit no-match `none` (never an
exception on a miss), and `read` raises its not-found error for a given
directory/filename/matchSeed combination exactly when `find_existing`
with the same arguments returns `none`. -/
theorem C5_read_notFound_iff (h : HashFn) (initArrays : InitArraysPolicy)
    (defaultDir : String) (fs : FS) (direc : Option String) (fname : Option FileName)
    (matchSeed : Bool) (st : OState) (l : Locator) (hl : st.locator? h = some l) :
    (readModel h initArrays defaultDir fs direc fname matchSeed st =
        Except.error ReadErr.notFound ↔
      findExisting fs defaultDir l direc fname matchSeed = none) := by
  unfold readModel
  cases hfe : findExisting fs defaultDir l direc fname matchSeed with
  | none => simp [hl, hfe]
  | some p =>
    simp only [hl, hfe]
    constructor
    · intro hc
      exact absurd hc (readAfterFind_ne_notFound initArrays fs p st)
    · intro hc
      cases hc

/-- C5 witness: on an empty cache, `read` fails with the not-found error
and `find_existing` returns `none`, in agreement with the equivalence. -/
theorem C5_witness :
    (readModel (fun s => s) (fun a => a) "d" ⟨[]⟩ none none false c5St =
        Except.error ReadErr.notFound ↔
      findExisting ⟨[]⟩ "d" c5Loc none none false = none) :=
  C5_read_notFound_iff (fun s => s) (fun a => a) "d" ⟨[]⟩ none none false c5St c5Loc
    (by decide)

/-- C6: after every successful `read`, the domain Parameter Record's
volatile seed field (a derived field whose backing slot is
`_RANDOM_SEED`, as in the concrete subclasses; spec-modelled) equals the
`RANDOM_SEED` value stored in the `cosmo` group of the matched container
file - even when the seed-insensitive search matched a file whose seed
differs from the requested one - and the `filled` flag is true. -/
theorem C6_read_seed (h : HashFn) (initArrays : InitArraysPolicy) (defaultDir : String)
    (fs : FS) (direc : Option String) (fname : Option FileName) (matchSeed : Bool)
    (st st' : OState) (hprop : "RANDOM_SEED" ∈ st.cosmo_params.propertyFields)
    (hok : readModel h initArrays defaultDir fs direc fname matchSeed st = Except.ok st') :
    st'.filled = true ∧
    ∃ l p content cg sv,
      st.locator? h = some l ∧
      findExisting fs defaultDir l direc fname matchSeed = some p ∧
      lookupFile fs p = some content ∧
      alookup content.groups "cosmo" = some cg ∧
      alookup cg.attrs "RANDOM_SEED" = some sv ∧
      st'.cosmo_params.getattrPy "RANDOM_SEED" = some sv := by
  unfold readModel at hok
  cases hl : st.locator? h with
  | none => simp [hl] at hok
  | some l =>
    simp only [hl] at hok
    cases hfe : findExisting fs defaultDir l direc fname matchSeed with
    | none => simp [hfe] at hok
    | some p =>
      simp only [hfe] at hok
      obtain ⟨h1, h2, content, cg, sv, h3, h4, h5, h6⟩ :=
        readAfterFind_ok initArrays fs p st st' hok
      refine ⟨h1, l, p, content, cg, sv, rfl, hfe, h3, h4, h5, ?_⟩
      exact getattr_after_seed_write st'.cosmo_params st.cosmo_params.attrs sv
        (h2 ▸ hprop) h6

/-- C6 witness: an instance requesting seed 7 restores, under
seed-insensitive matching, a file written with seed 1; afterwards the
seed field reads 1 and `filled` is true. -/
theorem C6_witness :
    c6StRes.filled = true ∧
    c6StRes.cosmo_params.getattrPy "RANDOM_SEED" = some (Val.int 1) ∧
    c5St.cosmo_params.getattrPy "RANDOM_SEED" = some (Val.int 7) := by
  obtain ⟨hfill, -⟩ :=
    C6_read_seed (fun s => s) (fun a => a) "d" c6FS none none false c5St c6StRes
      (by decide) (by rfl)
  exact ⟨hfill, by decide, by decide⟩

/-- `_init_cstruct` ends with the explicit `arrays_initialized` gate
(lines 272-274), so success implies the invariant. -/
theorem initCstruct_ok_initialized (f : InitArraysPolicy) (s s' : ArrState)
    (h : initCstruct f s = Except.ok s') : arraysInitialized s' = true := by
  unfold initCstruct at h
  cases hb : bindPointers (f s).attrs (f s).pointerFields (f s).cptr with
  | error e => simp [hb] at h
  | ok cptr1 =>
    simp only [hb] at h
    cases hp : setPrims (f s).attrs (f s).primitiveFields (f s).cprim with
    | error e => simp [hp] at h
    | ok cprim1 =>
      simp only [hp] at h
      by_cases hai : arraysInitialized { f s with cptr := cptr1, cprim := cprim1 } = true
      · rw [if_pos hai] at h
        cases h
        exact hai
      · rw [if_neg hai] at h
        cases h

/-- C7: `arrays_initialized` holds exactly when every pointer field is
present as an attribute and bound non-NULL in the cstruct; a successful
`_init_cstruct` establishes the invariant, after which `__call__` returns
the structure without raising; and on a state whose array attributes are
genuine arrays but with some pointer field unbound, `_init_cstruct`
always raises the struct-invalid error. -/
theorem C7_arrays_invariant :
    (∀ s : ArrState, arraysInitialized s = true ↔
      ∀ k ∈ s.pointerFields, (alookup s.attrs k).isSome = true ∧
        (alookup s.cptr k).getD false = true) ∧
    (∀ (f : InitArraysPolicy) (s s' : ArrState), initCstruct f s = Except.ok s' →
      arraysInitialized s' = true ∧ callStruct f s' = Except.ok s') ∧
    (∀ (f : InitArraysPolicy) (s : ArrState),
      (∀ k v, k ∈ (f s).pointerFields → alookup (f s).attrs k = some v →
        ∃ d, v = PyAttr.ndarray d) →
      (∃ k, k ∈ (f s).pointerFields ∧ alookup (f s).attrs k = none) →
      initCstruct f s = Except.error InitErr.structInvalid) := by
  refine ⟨?_, ?_, ?_⟩
  · intro s
    unfold arraysInitialized
    rw [List.all_eq_true]
    constructor
    · intro hall k hk
      have := hall k hk
      rwa [Bool.and_eq_true] at this
    · intro hall k hk
      rw [Bool.and_eq_true]
      exact hall k hk
  · intro f s s' hok
    have hai := initCstruct_ok_initialized f s s' hok
    refine ⟨hai, ?_⟩
    unfold callStruct
    rw [if_pos hai]
  · intro f s hnd hex
    simp only [initCstruct]
    rw [bindPointers_missing (f s).attrs (f s).pointerFields (f s).cptr hnd hex]

/-- C7 witness: the invariant holds after initializing a well-formed
state, `__call__` then succeeds, and a deliberately unbound pointer field
makes `_init_cstruct` raise the struct-invalid error. -/
theorem C7_witness :
    arraysInitialized c7GoodRes = true ∧
    callStruct (fun a => a) c7GoodRes = Except.ok c7GoodRes ∧
    initCstruct (fun a => a) c7Bad = Except.error InitErr.structInvalid := by
  have h2 := C7_arrays_invariant.2.1 (fun a => a) c7Good c7GoodRes (by rfl)
  have h3 := C7_arrays_invariant.2.2 (fun a => a) c7Bad
    (by intro k v hk hv; simp [c7Bad, alookup] at hv)
    ⟨"box", by decide, by decide⟩
  exact ⟨h2.1, h2.2, h3⟩
